import Mathlib

/-!
Verification development for the cbuild source-based package builder
(src/cbuild1.0.cpp, evolved from the prototype src/cbuild.cpp).

The C++ program shells out to external tools (curl, git, tar, patch,
sha256sum, ldd).  The embedding below models the program's own control
flow and state transitions exactly, while the outcomes of external
commands (network downloads, digest computation, patch/extract exit
codes, the hook commands of a recipe) are supplied by explicit
environment records: each `...Env` structure is the oracle of external
command results that one command consults.  Filesystem content touched
by the program is carried explicitly: a directory of source artifacts is
an association list from path to file content, the installation root is
an optional list of relative file paths (`none` = the directory does not
exist), and snapshot archives live in an association list keyed by the
derived archive path.
-/

namespace Cbuild

/-- Characters trimmed by the recipe parser's `trim` lambda
(`find_first_not_of(" \t\r\n")`). -/
def isTrimChar (ch : Char) : Bool :=
  ch = ' ' ∨ ch = '\t' ∨ ch = '\r' ∨ ch = '\n'

/-- Trim of both ends, as done by `Recipe::split_list` and `cmd_patch`. -/
def trimStr (s : String) : String :=
  String.mk (((s.data.dropWhile isTrimChar).reverse.dropWhile isTrimChar).reverse)

/-- Characters removed by `std::remove_if(.., ::isspace)` in `sha256_file`
and `cmd_revdep` (the C locale's isspace set). -/
def isCppSpace (ch : Char) : Bool :=
  ch = ' ' ∨ ch = '\t' ∨ ch = '\n' ∨ ch = '\x0b' ∨ ch = '\x0c' ∨ ch = '\r'

/-- Remove every whitespace character from a string
(`s.erase(std::remove_if(s.begin(), s.end(), ::isspace), s.end())`). -/
def stripWhitespace (s : String) : String :=
  String.mk (s.data.filter (fun ch => ¬ isCppSpace ch))

/-- Char-level starts-with test (first list begins with the second),
modelling `s.rfind(x, 0) == 0`. -/
def charsLead : List Char → List Char → Bool
  | _, [] => true
  | [], _ :: _ => false
  | a :: as, b :: bs => a = b ∧ charsLead as bs

/-- `s.rfind(p, 0) == 0`: does `s` begin with `p`? -/
def strBegins (s p : String) : Bool := charsLead s.data p.data

/-- Split a character list at every occurrence of a delimiter. -/
def splitCharAux (delim : Char) : List Char → List Char → List (List Char)
  | [], acc => [acc.reverse]
  | ch :: rest, acc =>
    if ch = delim then acc.reverse :: splitCharAux delim rest []
    else splitCharAux delim rest (ch :: acc)

/-- Split a string at every occurrence of a delimiter character. -/
def splitChar (delim : Char) (s : String) : List String :=
  (splitCharAux delim s.data []).map String.mk

/-- Recipe record, from `struct Recipe` in src/cbuild1.0.cpp. -/
structure Recipe where
  name : String := ""
  version : String := ""
  url : String := ""
  sha256 : String := ""
  vcs : String := ""
  patches : String := ""
  postremove : String := ""
  strip : Bool := false
  submodules : Bool := false
  prebuild : String := ""
  configure : String := ""
  prepare : String := ""
  build : String := ""
  installHook : String := ""
  postinstall : String := ""

/-- `Recipe::split_list`: split a comma-separated list, trim each item,
drop empties.  (`std::getline(ss, item, ',')` yields no item for an empty
string and ignores a trailing separator; splitting then filtering empty
items agrees with it.) -/
def Recipe.split_list (s : String) : List String :=
  ((splitChar ',' s).map trimStr).filter (fun t => t ≠ "")

/-- Directory layout (`struct Config`); paths are plain strings. -/
structure Config where
  base : String
  recipes : String
  sources : String
  work : String
  destroot : String
  logs : String
  repo : String
  snapshots : String

/-- `make_default_config` relative to a base directory (the C++ reads
`$HOME` to pick the base; the derivation of the subdirectories is what
matters here). -/
def make_default_config (base : String) : Config :=
  { base := base
    recipes := base ++ "/recipes"
    sources := base ++ "/sources"
    work := base ++ "/work"
    destroot := base ++ "/destdir"
    logs := base ++ "/logs"
    repo := base ++ "/repo"
    snapshots := base ++ "/snapshots" }

/-- `recipe_dir(c, name)`. -/
def recipe_dir (c : Config) (name : String) : String :=
  c.recipes ++ "/" ++ name

/-- Final path segment of a URL (`u.substr(u.find_last_of('/') + 1)`),
or `none` when the URL has no slash. -/
def url_basename (u : String) : Option String :=
  if u.data.contains '/' then some ((splitChar '/' u).getLastD "") else none

/-- File name derived for one source URL inside `source_paths`. -/
def source_fname (r : Recipe) (u : String) : String :=
  (url_basename u).getD (r.name ++ "-" ++ r.version ++ ".tar.gz")

/-- `source_paths(c, r)`: derived artifact paths, one per URL; with no
URL and a VCS source the list is empty; with neither, one synthesized
`.tar` path. -/
def source_paths (c : Config) (r : Recipe) : List String :=
  let urls := Recipe.split_list r.url
  if urls = [] then
    if r.vcs ≠ "" then []
    else [c.sources ++ "/" ++ r.name ++ "-" ++ r.version ++ ".tar"]
  else urls.map (fun u => c.sources ++ "/" ++ source_fname r u)

/-- `work_dir(c, r)`. -/
def work_dir (c : Config) (r : Recipe) : String :=
  c.work ++ "/" ++ r.name ++ "-" ++ r.version

/-- `destdir_pkg(c, r)`: the per-package installation root. -/
def destdir_pkg (c : Config) (r : Recipe) : String :=
  c.destroot ++ "/" ++ r.name ++ "-" ++ r.version

/-- `install_manifest(c, r)`. -/
def install_manifest (c : Config) (r : Recipe) : String :=
  c.logs ++ "/" ++ r.name ++ "-" ++ r.version ++ ".manifest"

/-- `snapshot_tar(c, r)`: the single snapshot-archive path derived for a
name-version; used by both `cmd_install` and `cmd_remove`. -/
def snapshot_tar (c : Config) (r : Recipe) : String :=
  c.snapshots ++ "/" ++ r.name ++ "-" ++ r.version ++ ".tar.zst"

/-- The gzip-fallback variant of a snapshot path.  `make_snapshot` and
`restore_snapshot` both derive it from the `.tar.zst` path by dropping
the 4-character `.zst` extension and appending `.tar.gz` (via
`replace_extension` resp. `substr(0, size-4)`), which agree. -/
def gz_variant (p : String) : String :=
  (String.mk (p.data.take (p.data.length - 4))) ++ ".tar.gz"

/-- `is_elf`: the 4-byte magic header check (0x7f 'E' 'L' 'F'), over the
first bytes of a file. -/
def is_elf (bytes : List Nat) : Bool :=
  match bytes with
  | b0 :: b1 :: b2 :: b3 :: _ => b0 = 127 ∧ b1 = 69 ∧ b2 = 76 ∧ b3 = 70
  | _ => false

/-- The sources directory: an association list from artifact path to file
content.  Downloads cons a new entry; `List.lookup` returns the newest
binding, so a cons is an overwrite-or-create. -/
abbrev Files := List (String × String)

/-- External-world oracle for `cmd_fetch`.  `net u` is the result of
`curl -L --fail -o dst u`: on `Except.ok content` curl exited 0 and wrote
`content` to the destination; on `Except.error rc` it exited with the
nonzero status `rc` and wrote nothing.  `dg content` is the raw line the
`sha256sum | awk` pipeline prints for a file holding `content`. -/
structure FetchEnv where
  net : String → Except Nat String
  dg : String → String
  gitDirExists : Bool
  gitCloneRc : Nat
  gitFetchRc : Nat

/-- `sha256_file(p)`: run the digest pipeline on the file at `p` and strip
all whitespace from its output.  A missing file produces no pipeline
output, hence the empty string before stripping. -/
def sha256_file (env : FetchEnv) (files : Files) (p : String) : String :=
  stripWhitespace (env.dg ((files.lookup p).getD ""))

/-- The per-index loop of `cmd_fetch`: walk the URL list (the checksum
list walks in step, preserving the positional `i < sums.size()`
alignment), download each missing artifact, then verify the declared
checksum if one is present.  Returns the exit status, the updated sources
directory, and the list of destination paths actually downloaded. -/
def fetchLoop (env : FetchEnv) (c : Config) (r : Recipe) :
    List String → List String → Files → List String → Nat × Files × List String
  | [], _, files, dl => (0, files, dl)
  | u :: us, sums, files, dl =>
    let dst := c.sources ++ "/" ++ source_fname r u
    let step : Option Nat × Files × List String :=
      match files.lookup dst with
      | none =>
        match env.net u with
        | Except.error rc => (some rc, files, dl)
        | Except.ok content => (none, (dst, content) :: files, dl ++ [dst])
      | some _ => (none, files, dl)
    match step with
    | (some rc, f, d) => (rc, f, d)
    | (none, f, d) =>
      match sums with
      | [] => fetchLoop env c r us [] f d
      | sum :: rest =>
        if sum ≠ "" ∧ sha256_file env f dst ≠ sum then (3, f, d)
        else fetchLoop env c r us rest f d

/-- `cmd_fetch`: the URL loop followed by the optional live-VCS step
(clone on first use, else fetch refs; the submodule update's status is
discarded by the C++ code).  The VCS step touches only the separate
`name-git` checkout directory, never the artifact files. -/
def cmd_fetch (env : FetchEnv) (c : Config) (r : Recipe) (files : Files) :
    Nat × Files × List String :=
  match fetchLoop env c r (Recipe.split_list r.url) (Recipe.split_list r.sha256) files [] with
  | (rc, f, d) =>
    if rc ≠ 0 then (rc, f, d)
    else if r.vcs ≠ "" ∧ strBegins r.vcs "git:" then
      (if env.gitDirExists then env.gitFetchRc else env.gitCloneRc, f, d)
    else (0, f, d)

/-- External-world oracle for `cmd_extract`: the exit status of
`extract_one` per artifact path and of the VCS working-copy `cp -a`. -/
structure ExtractEnv where
  extractRc : String → Nat
  vcsCopyRc : Nat

/-- The artifact loop of `cmd_extract`: each artifact must exist, and is
then handed to `extract_one`; the second component records every artifact
extraction actually ran on (the failing one included — `extract_one` did
run on it). -/
def extractLoop (env : ExtractEnv) (files : Files) :
    List String → List String → Nat × List String
  | [], ran => (0, ran)
  | src :: rest, ran =>
    if (files.lookup src).isNone then (4, ran)
    else
      let ran' := ran ++ [src]
      let rc := env.extractRc src
      if rc ≠ 0 then (rc, ran') else extractLoop env files rest ran'

/-- `cmd_extract`: extract every derived artifact into the (recreated)
work tree, or fall back to copying the VCS checkout; with neither, fail
with status 4.  The work-tree content itself is not modelled; the result
is the exit status plus the artifacts extraction ran on. -/
def cmd_extract (env : ExtractEnv) (c : Config) (r : Recipe) (files : Files) :
    Nat × List String :=
  let srcs := source_paths c r
  if srcs ≠ [] then extractLoop env files srcs []
  else if r.vcs ≠ "" ∧ strBegins r.vcs "git:" then
    (env.vcsCopyRc, [])
  else (4, [])

/-- The three apply strategies attempted by `apply_patch_file`:
`git am --3way` (three-way mailbox apply), `patch -p1`, `patch -p0`. -/
inductive Strategy where
  | am
  | p1
  | p0
deriving DecidableEq, Repr

/-- External-world oracle for `cmd_patch`.  `am`/`p1`/`p0` give the exit
status of the respective apply command on a given patch-file path;
`curl` the download status of a remote patch URL; `fetchRefRc`/`cherry`
the statuses of `git fetch repo refspec` and `git cherry-pick`;
`fsExists`/`fsIsDir` answer filesystem queries; `dirPatchFiles d` lists
the regular files of directory `d` (unsorted, as enumerated);
`effect t` is the set of work-tree changes left behind by processing
entry `t` (partial changes of a failed attempt included — nothing in the
program ever rolls a work tree back); `gitRepoExists`/`gitInitRc` drive
`ensure_git_repo`, whose `git init` is run strictly (throws on
failure). -/
structure PatchEnv where
  am : String → Nat
  p1 : String → Nat
  p0 : String → Nat
  curl : String → Nat
  fetchRefRc : String → String → Nat
  cherry : String → Nat
  fsExists : String → Bool
  fsIsDir : String → Bool
  dirPatchFiles : String → List String
  effect : String → List String
  gitRepoExists : Bool
  gitInitRc : Nat

/-- `apply_patch_file(patch, wd)`: try `git am --3way`, then
`patch -p1`, then `patch -p0`; the exit status returned is 0 as soon as
one succeeds, else the `patch -p0` status.  The second component is the
trace of strategies actually attempted (an observation added by the
embedding; the C++ returns only the status). -/
def apply_patch_file (env : PatchEnv) (patch : String) : Nat × List Strategy :=
  if env.am patch = 0 then (0, [Strategy.am])
  else if env.p1 patch = 0 then (0, [Strategy.am, Strategy.p1])
  else (env.p0 patch, [Strategy.am, Strategy.p1, Strategy.p0])

/-- The apply procedure in the specification's words: attempt a
three-way mailbox apply first; on failure fall back to unified-diff
apply at strip level 1, then strip level 0; first success wins. -/
def specApplyAttempts (env : PatchEnv) (patch : String) : List Strategy :=
  if env.am patch = 0 then [Strategy.am]
  else if env.p1 patch = 0 then [Strategy.am, Strategy.p1]
  else [Strategy.am, Strategy.p1, Strategy.p0]

/-- `e.path().extension().string()`: the final dot-suffix of a path. -/
def path_extension (s : String) : String :=
  let parts := splitChar '.' s
  if parts.length ≤ 1 then "" else "." ++ parts.getLastD ""

/-- `is_url`. -/
def is_url (s : String) : Bool :=
  strBegins s "http://" ∨ strBegins s "https://"

/-- `is_git`. -/
def is_git (s : String) : Bool :=
  strBegins s "git:"

/-- The loop of `apply_patches_from_dir`: run `apply_patch_file` on each
file in order, stopping at the first nonzero status. -/
def applyDirLoop (env : PatchEnv) : List String → Nat
  | [] => 0
  | p :: rest =>
    let rc := (apply_patch_file env p).1
    if rc ≠ 0 then rc else applyDirLoop env rest

/-- `apply_patches_from_dir(dir, wd)`: collect the regular files with
extension `.patch`/`.diff`/`.mbox`, sort them by name, apply each in
order. -/
def apply_patches_from_dir (env : PatchEnv) (dir : String) : Nat :=
  let files := (env.dirPatchFiles dir).filter
    (fun p => path_extension p = ".patch" ∨ path_extension p = ".diff" ∨ path_extension p = ".mbox")
  applyDirLoop env (files.mergeSort (fun a b => a ≤ b))

/-- Processing of one trimmed, non-empty patch entry inside
`cmd_patch`'s loop: dispatch on the `git:`/URL/local shape.  `some rc`
is the status the entry contributed (0 = applied); `none` models the
exception thrown by `exec_cmd_strict` when the `git fetch` of a
cherry-pick refspec fails, which aborts `cmd_patch` through the
top-level fault boundary. -/
def processEntry (env : PatchEnv) (c : Config) (r : Recipe) (t : String) : Option Nat :=
  if is_git t then
    let rest := String.mk (t.data.drop 4)
    if rest.data.contains '@' then
      let url := String.mk (rest.data.takeWhile (fun ch => ch ≠ '@'))
      let ref := String.mk ((rest.data.dropWhile (fun ch => ch ≠ '@')).drop 1)
      if env.fetchRefRc url ref ≠ 0 then none
      else some (env.cherry ref)
    else some 6
  else if is_url t then
    let rc := env.curl t
    if rc ≠ 0 then some rc
    else some (apply_patch_file env t).1
  else
    let p := if strBegins t "/" then t else recipe_dir c r.name ++ "/" ++ t
    if ¬ env.fsExists p then some 6
    else if env.fsIsDir p then some (apply_patches_from_dir env p)
    else some (apply_patch_file env p).1

/-- The entry loop of `cmd_patch`: process entries strictly in listed
order; the first entry that does not apply cleanly ends the loop with
its status (or with the propagated exception).  The state threaded
through is the work tree (a list of applied changes, grown by each
attempt's `effect` — there is no rollback code anywhere) and the list of
entries attempted. -/
def patchLoop (env : PatchEnv) (c : Config) (r : Recipe) :
    List String → List String → List String → Option Nat × List String × List String
  | [], tree, att => (some 0, tree, att)
  | t :: rest, tree, att =>
    let tree' := tree ++ env.effect t
    let att' := att ++ [t]
    match processEntry env c r t with
    | none => (none, tree', att')
    | some 0 => patchLoop env c r rest tree' att'
    | some rc => (some rc, tree', att')

/-- `cmd_patch`: no-op on an empty patch list; status 5 when the work
tree is missing; otherwise make the work tree a git checkout
(`ensure_git_repo`, strict `git init`) and run the entry loop.  Result:
`some rc` for a normal return, `none` for a thrown exception, plus the
final work tree and the attempted entries. -/
def cmd_patch (env : PatchEnv) (c : Config) (r : Recipe) (wdExists : Bool)
    (tree : List String) : Option Nat × List String × List String :=
  if r.patches = "" then (some 0, tree, [])
  else if ¬ wdExists then (some 5, tree, [])
  else if ¬ env.gitRepoExists ∧ env.gitInitRc ≠ 0 then (none, tree, [])
  else patchLoop env c r (Recipe.split_list r.patches) tree []

/-- State touched by install/remove: the installation root (`none` =
directory absent, `some files` = its set of relative file paths), the
snapshot archives keyed by archive path, and the manifest file content
for this name-version. -/
structure FsState where
  dest : Option (List String)
  snaps : List (String × List String)
  manifest : Option (List String)
deriving DecidableEq, Repr

/-- External-world oracle for `cmd_install`/`cmd_remove`.  `hasZstd` is
the `command -v zstd` probe; `snapCmdRc` is the exit status of the
strict archiving pipeline a `make_snapshot` call runs (`tar | zstd`, or
the `tar -czf` fallback) and `restoreCmdRc` that of the strict
extraction pipeline a `restore_snapshot` call runs — both go through
`exec_cmd_strict`, which throws on a nonzero status; `installRc` is the
install hook's exit status and `installWrites` the content of the root
once the hook has run (its partial output when it fails);
`postinstallRc`/`postremoveRc` are the hook statuses of the post
steps. -/
structure InstallEnv where
  hasZstd : Bool
  snapCmdRc : Nat
  restoreCmdRc : Nat
  installRc : Nat
  installWrites : List String
  postinstallRc : Nat
  postremoveRc : Nat

/-- `make_snapshot(dest, snap)`: when the root exists and is non-empty,
run one strict archiving pipeline writing the root's content at the
snapshot path (zstd) or at its gzip-variant path; otherwise nothing is
written and no command runs.  The first component is `false` when the
archiving command exits nonzero: `exec_cmd_strict` then throws, and no
usable archive entry is left.  (The status test is hoisted before the
compressor choice; exactly one command runs either way.) -/
def make_snapshot (env : InstallEnv) (snap : String) (s : FsState) : Bool × FsState :=
  match s.dest with
  | none => (true, s)
  | some content =>
    if content.isEmpty then (true, s)
    else if env.snapCmdRc ≠ 0 then (false, s)
    else if env.hasZstd then (true, { s with snaps := (snap, content) :: s.snaps })
    else (true, { s with snaps := (gz_variant snap, content) :: s.snaps })

/-- `restore_snapshot(dest, snap)`: a no-op when neither the zstd nor
the gzip archive exists (the root is left untouched, no command runs);
otherwise the root is removed and recreated empty and one strict
extraction pipeline unpacks the archive (zstd preferred when available)
into it.  The first component is `false` when that extraction command
exits nonzero: `exec_cmd_strict` then throws with the root already
emptied. -/
def restore_snapshot (env : InstallEnv) (snap : String) (s : FsState) : Bool × FsState :=
  if (s.snaps.lookup snap).isNone ∧ (s.snaps.lookup (gz_variant snap)).isNone then (true, s)
  else
    let cleared : FsState := { s with dest := some [] }
    if env.hasZstd ∧ (s.snaps.lookup snap).isSome then
      if env.restoreCmdRc = 0 then (true, { cleared with dest := s.snaps.lookup snap })
      else (false, cleared)
    else
      match s.snaps.lookup (gz_variant snap) with
      | some content =>
        if env.restoreCmdRc = 0 then (true, { cleared with dest := some content })
        else (false, cleared)
      | none => (true, cleared)

/-- `cmd_install`: remove and recreate the root, call `make_snapshot` on
it, run the install hook (with the destination-root override); on hook
failure restore the snapshot and return the hook's status; on success
record the manifest (strip does not change the file set) and run
postinstall, whose failure is returned without any rollback.  A `none`
status models an exception from a strict snapshot/restore command
escaping to the top-level fault boundary (process exit 100), paired with
the filesystem state at throw time. -/
def cmd_install (c : Config) (r : Recipe) (env : InstallEnv) (s : FsState) :
    Option Nat × FsState :=
  let snap := snapshot_tar c r
  let s0 : FsState := { s with dest := some [] }
  match make_snapshot env snap s0 with
  | (false, sx) => (none, sx)
  | (true, s1) =>
    let s2 : FsState := { s1 with dest := some env.installWrites }
    if env.installRc ≠ 0 then
      match restore_snapshot env snap s2 with
      | (false, sx) => (none, sx)
      | (true, s3) => (some env.installRc, s3)
    else
      let s3 : FsState := { s2 with manifest := some env.installWrites }
      if env.postinstallRc ≠ 0 then (some env.postinstallRc, s3) else (some 0, s3)

/-- `cmd_remove`: snapshot the current root at the same derived snapshot
path — a failing strict archiving command throws out of `cmd_remove`
before anything is deleted (`none` status, root untouched, postremove
never run) — then, manifest or not, delete the listed files (when a
manifest exists) and unconditionally remove the whole root; the
postremove hook is run but its exit status is discarded, and 0 is
returned. -/
def cmd_remove (c : Config) (r : Recipe) (env : InstallEnv) (s : FsState) :
    Option Nat × FsState :=
  let snap := snapshot_tar c r
  match make_snapshot env snap s with
  | (false, sx) => (none, sx)
  | (true, s1) =>
    match s1.manifest with
    | some m =>
      let s2 : FsState := { s1 with dest := s1.dest.map (fun fs => fs.filter (fun f => f ∉ m)) }
      let s3 : FsState := { s2 with dest := none }
      (some 0, s3)
    | none => (some 0, { s1 with dest := none })

/-- One enumerated file of an installation root, as `cmd_revdep` sees
it: its relative path, whether it is a regular file, its leading bytes,
and the lines the `ldd | awk | sed` pipeline prints for it. -/
structure BinEntry where
  relPath : String
  isRegularFile : Bool
  magic : List Nat
  lddLines : List String
deriving DecidableEq, Repr

/-- The (library, dependent-binary) pairs one enumerated file
contributes to `dep2bins`: nothing unless it is a regular ELF file; each
pipeline line is whitespace-stripped and dropped when empty. -/
def entryPairs (e : BinEntry) : Finset (String × String) :=
  if e.isRegularFile ∧ is_elf e.magic then
    (((e.lddLines.map stripWhitespace).filter (fun lib => lib ≠ "")).map
      (fun lib => (lib, e.relPath))).toFinset
  else ∅

/-- The `dep2bins` accumulation of `cmd_revdep`: a
`std::map<std::string, std::set<std::string>>` filled by insertions is,
semantically, the finite set of (library, binary) pairs inserted. -/
def revdepPairs (entries : List BinEntry) : Finset (String × String) :=
  entries.foldl (fun acc e => acc ∪ entryPairs e) ∅

/-- `cmd_revdep`'s report: iterate `dep2bins` in key order, each key with
its dependent binaries in order — i.e. the sorted library names, each
paired with the sorted set of binaries depending on it. -/
def cmd_revdep (entries : List BinEntry) : List (String × List String) :=
  let pairs := revdepPairs entries
  let libs := (pairs.image Prod.fst).sort (fun a b => a ≤ b)
  libs.map (fun lib =>
    (lib, ((pairs.filter (fun pr => pr.1 = lib)).image Prod.snd).sort (fun a b => a ≤ b)))

/-! Concrete sample inputs used by closed theorems and witnesses. -/

/-- A default layout rooted at `/b`. -/
def sampleCfg : Config := make_default_config "/b"

/-- A minimal recipe `p` version `1`. -/
def sampleRcp : Recipe := { name := "p", version := "1" }

/-- An install environment whose install hook fails with status 1 after
writing `leftover.txt` into the root; zstd available, and the strict
snapshot/restore pipelines succeed when they run. -/
def sampleEnvFail : InstallEnv :=
  { hasZstd := true, snapCmdRc := 0, restoreCmdRc := 0,
    installRc := 1, installWrites := ["leftover.txt"]
    postinstallRc := 0, postremoveRc := 0 }

/-- Pre-install state: the root holds a previous generation `old.txt`,
no snapshot archive exists, no manifest. -/
def samplePreState : FsState :=
  { dest := some ["old.txt"], snaps := [], manifest := none }

/-! Helper lemmas. -/

/-- `restore_snapshot` never writes a snapshot archive, whether it
returns normally or throws. -/
theorem restore_snapshot_snaps (env : InstallEnv) (p : String) (s : FsState) :
    ((restore_snapshot env p s).2).snaps = s.snaps := by
  unfold restore_snapshot
  repeat' split
  all_goals rfl

/-- `make_snapshot` of a freshly emptied root runs no command and writes
nothing (field-explicit form, convenient for rewriting). -/
theorem make_snapshot_mk_empty (env : InstallEnv) (p : String)
    (sn : List (String × List String)) (m : Option (List String)) :
    make_snapshot env p { dest := some [], snaps := sn, manifest := m }
      = (true, { dest := some [], snaps := sn, manifest := m }) := rfl

/-- With a succeeding archiving command, `make_snapshot` never throws. -/
theorem make_snapshot_ok_fst (env : InstallEnv) (p : String) (s : FsState)
    (h : env.snapCmdRc = 0) : (make_snapshot env p s).1 = true := by
  unfold make_snapshot
  split
  · rfl
  · split
    · rfl
    · rw [if_neg (by simp [h])]
      split <;> rfl

/-- C2: the claim says every install snapshots the root's pre-install
content before any mutation, even on an empty root.  In the code,
`cmd_install` first empties the root (`remove_all` + `create_directories`)
and only then calls `make_snapshot`, whose empty-root guard then skips
archive creation — so an install invocation never writes any snapshot
archive at all: the snapshot store after `cmd_install` is exactly the one
before it, for every recipe, environment and starting state. -/
theorem cmd_install_writes_no_snapshot (c : Config) (r : Recipe) (env : InstallEnv)
    (s : FsState) : ((cmd_install c r env s).2).snaps = s.snaps := by
  simp only [cmd_install, make_snapshot_mk_empty]
  split
  · rcases hres : restore_snapshot env (snapshot_tar c r)
      { dest := some env.installWrites, snaps := s.snaps, manifest := s.manifest }
      with ⟨ok, sx⟩
    have hsn : sx.snaps = s.snaps := by
      have h2 := restore_snapshot_snaps env (snapshot_tar c r)
        { dest := some env.installWrites, snaps := s.snaps, manifest := s.manifest }
      rw [hres] at h2
      exact h2
    cases ok
    · exact hsn
    · exact hsn
  · split <;> rfl

/-- C1: evaluation of `cmd_install` at a failing install hook, starting
from a root that holds the previous generation `old.txt` with no snapshot
archive present.  The reported status is 1 (the failure is surfaced), but
the root ends up holding `leftover.txt` — the failed hook's partial
output — which is neither the pre-install state nor empty, and no
snapshot of the previous generation was ever taken. -/
theorem cmd_install_rollback_loses_previous_generation :
    (cmd_install sampleCfg sampleRcp sampleEnvFail samplePreState).1 = some 1 ∧
    ((cmd_install sampleCfg sampleRcp sampleEnvFail samplePreState).2).dest
      = some ["leftover.txt"] ∧
    ((cmd_install sampleCfg sampleRcp sampleEnvFail samplePreState).2).dest
      ≠ samplePreState.dest ∧
    ((cmd_install sampleCfg sampleRcp sampleEnvFail samplePreState).2).dest
      ≠ some [] ∧
    ((cmd_install sampleCfg sampleRcp sampleEnvFail samplePreState).2).snaps = [] := by
  decide

/-- A remove environment whose strict pre-removal snapshot pipeline
fails (exit 1) while the postremove hook itself would succeed. -/
def snapFailEnv : InstallEnv :=
  { hasZstd := true, snapCmdRc := 1, restoreCmdRc := 0, installRc := 0,
    installWrites := [], postinstallRc := 0, postremoveRc := 0 }

/-- A root holding one file, with no manifest and no archives. -/
def snapFailState : FsState := { dest := some ["f"], snaps := [], manifest := none }

/-- C6 counterexample: when the pre-removal snapshot's strict archiving
pipeline fails, `cmd_remove` aborts through the fault boundary (status
`none`, process exit 100) with the root still present, although the
postremove hook — whose status is 0 here — did not fail: remove fails
without postremove failing, and this manifest-missing invocation neither
succeeds nor removes the root. -/
theorem cmd_remove_snapshot_failure_aborts :
    (cmd_remove sampleCfg sampleRcp snapFailEnv snapFailState).1 = none ∧
    ((cmd_remove sampleCfg sampleRcp snapFailEnv snapFailState).2).dest = some ["f"] ∧
    snapFailEnv.postremoveRc = 0 := by
  decide

/-- C6 (amended): for every remove invocation whose pre-removal snapshot
step does not fail (its strict archiving command exits 0, or nothing is
archived at all), `cmd_remove` returns 0 and leaves the installation
root nonexistent — in particular when the manifest is missing (it warns
and still removes) and for every postremove exit status, which the code
discards: such a remove never fails, and a postremove failure never
undoes the already-performed deletion.  Only a failing snapshot command
makes remove fail, and that aborts it before any deletion. -/
theorem cmd_remove_succeeds_when_snapshot_ok (c : Config) (r : Recipe)
    (env : InstallEnv) (s : FsState) (h : env.snapCmdRc = 0) :
    (cmd_remove c r env s).1 = some 0 ∧ ((cmd_remove c r env s).2).dest = none := by
  rcases hms : make_snapshot env (snapshot_tar c r) s with ⟨ok, s1⟩
  have hok : ok = true := by
    have h2 := make_snapshot_ok_fst env (snapshot_tar c r) s h
    rw [hms] at h2
    exact h2
  subst hok
  simp only [cmd_remove]
  rw [hms]
  dsimp only
  split <;> exact ⟨rfl, rfl⟩

/-- An environment with a succeeding snapshot pipeline and a failing
postremove hook (exit 1). -/
def removeOkEnv : InstallEnv :=
  { hasZstd := true, snapCmdRc := 0, restoreCmdRc := 0, installRc := 0,
    installWrites := [], postinstallRc := 0, postremoveRc := 1 }

/-- Witness for the amended remove theorem: manifest missing, root
non-empty, postremove failing — remove still returns 0 and the root is
gone. -/
theorem cmd_remove_succeeds_when_snapshot_ok_witness :
    (cmd_remove sampleCfg sampleRcp removeOkEnv snapFailState).1 = some 0 ∧
    ((cmd_remove sampleCfg sampleRcp removeOkEnv snapFailState).2).dest = none :=
  cmd_remove_succeeds_when_snapshot_ok sampleCfg sampleRcp removeOkEnv snapFailState rfl

/-- C9: `cmd_install` and `cmd_remove` derive the very same archive path
`snapshot_tar c r` for a name-version.  Removing a package whose root is
non-empty writes its pre-removal content into that shared slot
(overwriting whatever was there), and a subsequent install whose hook
fails restores exactly what remove archived — the forensic pre-removal
snapshot, not a pre-install image. -/
theorem remove_overwrites_install_rollback_snapshot
    (c : Config) (r : Recipe) (env env2 : InstallEnv) (s : FsState) (cur : List String)
    (hdest : s.dest = some cur) (hcur : cur ≠ []) (hz : env.hasZstd = true)
    (hsnap : env.snapCmdRc = 0)
    (hz2 : env2.hasZstd = true) (hrc : env2.installRc ≠ 0)
    (hrestore : env2.restoreCmdRc = 0) :
    (((cmd_remove c r env s).2).snaps.lookup (snapshot_tar c r) = some cur) ∧
    ((cmd_install c r env2 ((cmd_remove c r env s).2)).2).dest = some cur := by
  cases cur with
  | nil => exact absurd rfl hcur
  | cons a as =>
    have hms : make_snapshot env (snapshot_tar c r) s
        = (true, { s with snaps := (snapshot_tar c r, a :: as) :: s.snaps }) := by
      simp [make_snapshot, hdest, hz, hsnap]
    have hrem : (cmd_remove c r env s).2
        = { dest := none, snaps := (snapshot_tar c r, a :: as) :: s.snaps,
            manifest := s.manifest } := by
      simp only [cmd_remove]
      rw [hms]
      dsimp only
      split <;> rfl
    have hlook : ((cmd_remove c r env s).2).snaps.lookup (snapshot_tar c r)
        = some (a :: as) := by
      rw [hrem]
      simp [List.lookup]
    refine ⟨hlook, ?_⟩
    rw [hrem]
    simp only [cmd_install, make_snapshot_mk_empty, hrc, if_true, ite_true]
    simp [restore_snapshot, List.lookup, hz2, hrestore]
    rw [if_neg hrc]

/-- Scenario state for the shared-snapshot-path claim: the root holds
generation `gen1` (recorded in the manifest) and a stale snapshot archive
is already present at the shared path. -/
def removeScenarioState : FsState :=
  { dest := some ["gen1"], snaps := [(snapshot_tar sampleCfg sampleRcp, ["stale"])],
    manifest := some ["gen1"] }

/-- Witness for the shared-snapshot-path theorem at the concrete
scenario: after `cmd_remove`, the shared slot holds the pre-removal
content `gen1` (the stale archive is shadowed), and a failing install's
rollback restores exactly that. -/
theorem remove_overwrites_install_rollback_snapshot_witness :
    (((cmd_remove sampleCfg sampleRcp sampleEnvFail removeScenarioState).2).snaps.lookup
        (snapshot_tar sampleCfg sampleRcp) = some ["gen1"]) ∧
    ((cmd_install sampleCfg sampleRcp sampleEnvFail
        ((cmd_remove sampleCfg sampleRcp sampleEnvFail removeScenarioState).2)).2).dest
      = some ["gen1"] :=
  remove_overwrites_install_rollback_snapshot sampleCfg sampleRcp sampleEnvFail
    sampleEnvFail removeScenarioState ["gen1"] rfl (by decide) rfl rfl rfl (by decide) rfl

/-- C5: `apply_patch_file` tries exactly the sequence three-way mailbox
apply (`git am --3way`), then `patch -p1`, then `patch -p0`, stopping at
the first success (the attempt trace equals the spec's procedure); it
returns success exactly when one of the three strategies succeeds, and
when all three fail it returns a nonzero status (the PatchApplyError the
caller reports for the entry). -/
theorem apply_patch_file_strategy_order (env : PatchEnv) (patch : String) :
    (apply_patch_file env patch).2 = specApplyAttempts env patch ∧
    ((apply_patch_file env patch).1 = 0 ↔
      env.am patch = 0 ∨ env.p1 patch = 0 ∨ env.p0 patch = 0) ∧
    (env.am patch ≠ 0 → env.p1 patch ≠ 0 → env.p0 patch ≠ 0 →
      (apply_patch_file env patch).1 ≠ 0) := by
  unfold apply_patch_file specApplyAttempts
  by_cases h1 : env.am patch = 0 <;> by_cases h2 : env.p1 patch = 0 <;>
    simp [h1, h2]

/-- An apply environment in which every strategy fails on every file. -/
def applyEnvAllFail : PatchEnv :=
  { am := fun _ => 1, p1 := fun _ => 1, p0 := fun _ => 1
    curl := fun _ => 0, fetchRefRc := fun _ _ => 0, cherry := fun _ => 0
    fsExists := fun _ => true, fsIsDir := fun _ => false
    dirPatchFiles := fun _ => [], effect := fun _ => []
    gitRepoExists := true, gitInitRc := 0 }

/-- Witness for the apply-procedure theorem: when all three strategies
fail, the status is nonzero. -/
theorem apply_patch_file_strategy_order_witness :
    (apply_patch_file applyEnvAllFail "x.patch").1 ≠ 0 :=
  (apply_patch_file_strategy_order applyEnvAllFail "x.patch").2.2
    (by decide) (by decide) (by decide)

/-- The entry loop applied to a list whose first non-succeeding entry is
`bad`: the loop stops there, returning `bad`'s status; every earlier
entry was attempted in order and its work-tree effect is in place, `bad`'s
(possibly partial) effect is in place too, and nothing after `bad` was
attempted. -/
theorem patchLoop_first_failure (env : PatchEnv) (c : Config) (r : Recipe)
    (bad : String) (post : List String) (rc : Nat)
    (hbad : processEntry env c r bad = some rc) (hrc : rc ≠ 0) :
    ∀ (pre : List String) (tree att : List String),
    (∀ e ∈ pre, processEntry env c r e = some 0) →
    patchLoop env c r (pre ++ bad :: post) tree att
      = (some rc, tree ++ ((pre ++ [bad]).map env.effect).flatten, att ++ (pre ++ [bad])) := by
  intro pre
  induction pre with
  | nil =>
    intro tree att _
    simp only [List.nil_append, patchLoop]
    rw [hbad]
    cases rc with
    | zero => exact absurd rfl hrc
    | succ n => simp
  | cons e es ih =>
    intro tree att hok
    have h0 : processEntry env c r e = some 0 := hok e (List.mem_cons_self e es)
    simp only [List.cons_append, patchLoop]
    rw [h0]
    dsimp only
    simp only [List.append_eq]
    rw [ih (tree ++ env.effect e) (att ++ [e])
      (fun x hx => hok x (List.mem_cons_of_mem e hx))]
    simp [List.append_assoc]

/-- C4: for a patch list split as `pre ++ bad :: post` where every entry
of `pre` applies cleanly and `bad` fails with status `rc ≠ 0`,
`cmd_patch` returns exactly `rc`: the entries were processed strictly in
listed order, the attempted entries are precisely `pre ++ [bad]`, the
work tree keeps its prior content plus the effects of exactly those
attempted entries (no rollback), and no entry of `post` was ever
attempted. -/
theorem cmd_patch_first_failure (env : PatchEnv) (c : Config) (r : Recipe)
    (tree : List String) (pre : List String) (bad : String) (post : List String) (rc : Nat)
    (hsplit : Recipe.split_list r.patches = pre ++ bad :: post)
    (hok : ∀ e ∈ pre, processEntry env c r e = some 0)
    (hbad : processEntry env c r bad = some rc) (hrc : rc ≠ 0)
    (hgit : env.gitRepoExists = true) :
    cmd_patch env c r true tree
      = (some rc, tree ++ ((pre ++ [bad]).map env.effect).flatten, pre ++ [bad]) := by
  have hne : r.patches ≠ "" := by
    intro h
    rw [h] at hsplit
    have hnil : Recipe.split_list "" = [] := rfl
    rw [hnil] at hsplit
    cases pre <;> simp at hsplit
  unfold cmd_patch
  rw [if_neg hne, hsplit, hgit]
  simp only [not_true, false_and, ite_false, if_false, Bool.not_true]
  have h := patchLoop_first_failure env c r bad post rc hbad hrc pre tree [] hok
  rw [List.nil_append] at h
  simpa using h

/-- A patch environment for the witness: local patch files resolve under
the recipe directory; entry `B` fails under all three strategies (with
`patch -p0` exiting 2), every other file applies on the first attempt;
each attempted entry `t` leaves the work-tree change `t!`. -/
def patchEnvSample : PatchEnv :=
  { am := fun p => if p = "/b/recipes/p/B" then 1 else 0
    p1 := fun _ => 1
    p0 := fun p => if p = "/b/recipes/p/B" then 2 else 0
    curl := fun _ => 0
    fetchRefRc := fun _ _ => 0
    cherry := fun _ => 0
    fsExists := fun _ => true
    fsIsDir := fun _ => false
    dirPatchFiles := fun _ => []
    effect := fun t => [t ++ "!"]
    gitRepoExists := true
    gitInitRc := 0 }

/-- Recipe with patch list `A,B,C`. -/
def patchRcp : Recipe := { name := "p", version := "1", patches := "A,B,C" }

/-- Witness for the patch-ordering theorem at patches `A,B,C` with `B`
failing: A's effect is present, C is never attempted, and the step fails
with B's status. -/
theorem cmd_patch_first_failure_witness :
    cmd_patch patchEnvSample sampleCfg patchRcp true []
      = (some 2, ["A!", "B!"], ["A", "B"]) := by
  have h := cmd_patch_first_failure patchEnvSample sampleCfg patchRcp []
    ["A"] "B" ["C"] 2 (by decide) (by decide) (by decide) (by decide) rfl
  simpa using h

/-- An artifact already present in the sources directory survives the
fetch loop unchanged and is never appended to the download list. -/
theorem fetchLoop_preserves (env : FetchEnv) (c : Config) (r : Recipe) :
    ∀ (urls sums : List String) (files : Files) (dl : List String) (p v : String),
    files.lookup p = some v →
    ((fetchLoop env c r urls sums files dl).2.1.lookup p = some v ∧
      (p ∈ (fetchLoop env c r urls sums files dl).2.2 → p ∈ dl)) := by
  intro urls
  induction urls with
  | nil =>
    intro sums files dl p v hp
    exact ⟨hp, fun h => h⟩
  | cons u us ih =>
    intro sums files dl p v hp
    simp only [fetchLoop]
    cases hl : files.lookup (c.sources ++ "/" ++ source_fname r u) with
    | some w =>
      dsimp only
      cases sums with
      | nil => exact ih [] files dl p v hp
      | cons sum rest =>
        dsimp only
        by_cases hc : sum ≠ "" ∧
            sha256_file env files (c.sources ++ "/" ++ source_fname r u) ≠ sum
        · rw [if_pos hc]
          exact ⟨hp, fun h => h⟩
        · rw [if_neg hc]
          exact ih rest files dl p v hp
    | none =>
      cases hn : env.net u with
      | error rc =>
        exact ⟨hp, fun h => h⟩
      | ok content =>
        dsimp only
        have hne : ¬ ((c.sources ++ "/" ++ source_fname r u) = p) := by
          intro heq
          rw [heq, hp] at hl
          exact Option.noConfusion hl
        have hp' : (((c.sources ++ "/" ++ source_fname r u), content) :: files).lookup p
            = some v := by
          have hbeq : (p == (c.sources ++ "/" ++ source_fname r u)) = false :=
            beq_eq_false_iff_ne.mpr (fun h => hne h.symm)
          simp only [List.lookup, hbeq]
          exact hp
        have hmem : p ∈ dl ++ [c.sources ++ "/" ++ source_fname r u] → p ∈ dl := by
          intro h
          rcases List.mem_append.mp h with h1 | h2
          · exact h1
          · exact absurd (List.mem_singleton.mp h2).symm hne
        cases sums with
        | nil =>
          have h := ih [] (((c.sources ++ "/" ++ source_fname r u), content) :: files)
            (dl ++ [c.sources ++ "/" ++ source_fname r u]) p v hp'
          exact ⟨h.1, fun hx => hmem (h.2 hx)⟩
        | cons sum rest =>
          dsimp only
          by_cases hc : sum ≠ "" ∧ sha256_file env
              (((c.sources ++ "/" ++ source_fname r u), content) :: files)
              (c.sources ++ "/" ++ source_fname r u) ≠ sum
          · rw [if_pos hc]
            exact ⟨hp', hmem⟩
          · rw [if_neg hc]
            have h := ih rest (((c.sources ++ "/" ++ source_fname r u), content) :: files)
              (dl ++ [c.sources ++ "/" ++ source_fname r u]) p v hp'
            exact ⟨h.1, fun hx => hmem (h.2 hx)⟩

/-- If every derived artifact already exists, the fetch loop downloads
nothing and leaves the sources directory literally unchanged, whatever
the exit status. -/
theorem fetchLoop_no_redownload (env : FetchEnv) (c : Config) (r : Recipe) :
    ∀ (urls sums : List String) (files : Files) (dl : List String),
    (∀ u ∈ urls, (files.lookup (c.sources ++ "/" ++ source_fname r u)).isSome) →
    ((fetchLoop env c r urls sums files dl).2.1 = files ∧
      (fetchLoop env c r urls sums files dl).2.2 = dl) := by
  intro urls
  induction urls with
  | nil =>
    intro sums files dl _
    exact ⟨rfl, rfl⟩
  | cons u us ih =>
    intro sums files dl hall
    have hu := hall u (List.mem_cons_self u us)
    rcases Option.isSome_iff_exists.mp hu with ⟨w, hw⟩
    simp only [fetchLoop]
    rw [hw]
    dsimp only
    cases sums with
    | nil => exact ih [] files dl (fun x hx => hall x (List.mem_cons_of_mem u hx))
    | cons sum rest =>
      dsimp only
      by_cases hc : sum ≠ "" ∧
          sha256_file env files (c.sources ++ "/" ++ source_fname r u) ≠ sum
      · rw [if_pos hc]
        exact ⟨rfl, rfl⟩
      · rw [if_neg hc]
        exact ih rest files dl (fun x hx => hall x (List.mem_cons_of_mem u hx))

/-- The post-loop VCS step of `cmd_fetch` never changes the artifact
files or the download list. -/
theorem cmd_fetch_result_components (env : FetchEnv) (c : Config) (r : Recipe)
    (files : Files) :
    (cmd_fetch env c r files).2
      = (fetchLoop env c r (Recipe.split_list r.url) (Recipe.split_list r.sha256) files []).2 := by
  rcases h : fetchLoop env c r (Recipe.split_list r.url) (Recipe.split_list r.sha256) files []
    with ⟨rc, f, d⟩
  unfold cmd_fetch
  rw [h]
  dsimp only
  split
  · rfl
  · split <;> rfl

/-- C7: (i) for every source index whose derived destination file is
already present, `cmd_fetch` performs no download for it (its path never
enters the download list) and leaves its content unchanged; and (ii) when
every derived destination exists — as after a completed fetch with
unchanged sources — a re-run performs no download at all and leaves the
sources directory identical. -/
theorem cmd_fetch_idempotent :
    (∀ (env : FetchEnv) (c : Config) (r : Recipe) (files : Files) (p v : String),
      files.lookup p = some v →
      ((cmd_fetch env c r files).2.1.lookup p = some v ∧
        p ∉ (cmd_fetch env c r files).2.2)) ∧
    (∀ (env : FetchEnv) (c : Config) (r : Recipe) (files : Files),
      (∀ u ∈ Recipe.split_list r.url,
        (files.lookup (c.sources ++ "/" ++ source_fname r u)).isSome) →
      ((cmd_fetch env c r files).2.1 = files ∧ (cmd_fetch env c r files).2.2 = [])) := by
  constructor
  · intro env c r files p v hp
    have h := fetchLoop_preserves env c r (Recipe.split_list r.url)
      (Recipe.split_list r.sha256) files [] p v hp
    rw [cmd_fetch_result_components]
    exact ⟨h.1, fun hmem => (List.not_mem_nil p) (h.2 hmem)⟩
  · intro env c r files hall
    have h := fetchLoop_no_redownload env c r (Recipe.split_list r.url)
      (Recipe.split_list r.sha256) files [] hall
    rw [cmd_fetch_result_components]
    exact h

/-- A fetch environment where every download succeeds with content
`data`, whose digest is `aa`. -/
def fetchEnvSample : FetchEnv :=
  { net := fun _ => Except.ok "data", dg := fun _ => "aa",
    gitDirExists := false, gitCloneRc := 0, gitFetchRc := 0 }

/-- A recipe with a single source URL. -/
def fetchRcpSample : Recipe := { name := "p", version := "1", url := "http://h/a.tar" }

/-- A sources directory already holding the derived artifact. -/
def fetchFilesSample : Files := [("/b/sources/a.tar", "data")]

/-- Witness for the fetch-idempotence theorem at a concrete recipe whose
single artifact is already present. -/
theorem cmd_fetch_idempotent_witness :
    ((cmd_fetch fetchEnvSample sampleCfg fetchRcpSample fetchFilesSample).2.1.lookup
        "/b/sources/a.tar" = some "data" ∧
      "/b/sources/a.tar" ∉ (cmd_fetch fetchEnvSample sampleCfg fetchRcpSample fetchFilesSample).2.2) ∧
    ((cmd_fetch fetchEnvSample sampleCfg fetchRcpSample fetchFilesSample).2.1 = fetchFilesSample ∧
      (cmd_fetch fetchEnvSample sampleCfg fetchRcpSample fetchFilesSample).2.2 = []) :=
  ⟨cmd_fetch_idempotent.1 fetchEnvSample sampleCfg fetchRcpSample fetchFilesSample
      "/b/sources/a.tar" "data" (by decide),
    cmd_fetch_idempotent.2 fetchEnvSample sampleCfg fetchRcpSample fetchFilesSample (by decide)⟩

/-- A fetch environment in which the artifact downloads with content
`corrupt`, whose stripped digest `ff` will not match the declared
checksum. -/
def fetchEnvBad : FetchEnv :=
  { net := fun _ => Except.ok "corrupt", dg := fun _ => "ff",
    gitDirExists := false, gitCloneRc := 0, gitFetchRc := 0 }

/-- An extract environment where extraction itself succeeds. -/
def extractEnvSample : ExtractEnv := { extractRc := fun _ => 0, vcsCopyRc := 0 }

/-- A recipe declaring a checksum `00` that the downloaded artifact does
not have. -/
def badSumRcp : Recipe :=
  { name := "p", version := "1", url := "http://h/a.tar", sha256 := "00" }

/-- C3 counterexample: a digest mismatch makes `cmd_fetch` fail with
status 3 (IntegrityError), but the corrupt artifact is left in the
sources directory and a subsequent `cmd_extract` invocation does run
extraction on that very artifact — extraction is not prevented. -/
theorem checksum_mismatch_extraction_still_runs :
    (cmd_fetch fetchEnvBad sampleCfg badSumRcp []).1 = 3 ∧
    "/b/sources/a.tar" ∈ (cmd_extract extractEnvSample sampleCfg badSumRcp
        (cmd_fetch fetchEnvBad sampleCfg badSumRcp []).2.1).2 := by
  decide

/-- C3 (amended): for any single-source recipe with a declared checksum,
when the freshly downloaded artifact's stripped digest differs from the
declared value, `cmd_fetch` fails with status 3 (IntegrityError) and the
artifact stays in the sources directory; a subsequent `cmd_extract`
invocation then runs extraction on that artifact — within fetch no
extraction happens, but nothing prevents it afterwards. -/
theorem fetch_mismatch_leaves_artifact_extractable
    (env : FetchEnv) (xenv : ExtractEnv) (c : Config) (r : Recipe) (files : Files)
    (u d content : String)
    (hurl : Recipe.split_list r.url = [u])
    (hsum : Recipe.split_list r.sha256 = [d]) (hd : d ≠ "")
    (habsent : files.lookup (c.sources ++ "/" ++ source_fname r u) = none)
    (hnet : env.net u = Except.ok content)
    (hmm : stripWhitespace (env.dg content) ≠ d) :
    (cmd_fetch env c r files).1 = 3 ∧
    (cmd_fetch env c r files).2.1.lookup (c.sources ++ "/" ++ source_fname r u)
      = some content ∧
    (c.sources ++ "/" ++ source_fname r u)
      ∈ (cmd_extract xenv c r (cmd_fetch env c r files).2.1).2 := by
  have hsha : sha256_file env
      (((c.sources ++ "/" ++ source_fname r u), content) :: files)
      (c.sources ++ "/" ++ source_fname r u) = stripWhitespace (env.dg content) := by
    unfold sha256_file
    simp [List.lookup]
  have hloop : fetchLoop env c r [u] [d] files []
      = (3, ((c.sources ++ "/" ++ source_fname r u), content) :: files,
          [c.sources ++ "/" ++ source_fname r u]) := by
    simp only [fetchLoop]
    rw [habsent, hnet]
    dsimp only
    have hcond : d ≠ "" ∧ sha256_file env
        (((c.sources ++ "/" ++ source_fname r u), content) :: files)
        (c.sources ++ "/" ++ source_fname r u) ≠ d := ⟨hd, by rw [hsha]; exact hmm⟩
    rw [if_pos hcond]
    rfl
  have hfetch : cmd_fetch env c r files
      = (3, ((c.sources ++ "/" ++ source_fname r u), content) :: files,
          [c.sources ++ "/" ++ source_fname r u]) := by
    unfold cmd_fetch
    rw [hurl, hsum, hloop]
    rfl
  have hlook : (((c.sources ++ "/" ++ source_fname r u), content) :: files).lookup
      (c.sources ++ "/" ++ source_fname r u) = some content := by
    simp [List.lookup]
  refine ⟨by rw [hfetch], by rw [hfetch]; exact hlook, ?_⟩
  rw [hfetch]
  unfold cmd_extract
  have hsrcs : source_paths c r = [c.sources ++ "/" ++ source_fname r u] := by
    unfold source_paths
    rw [hurl]
    simp
  rw [hsrcs]
  rw [if_pos (by simp : ([c.sources ++ "/" ++ source_fname r u] : List String) ≠ [])]
  have hin : (List.lookup (c.sources ++ "/" ++ source_fname r u)
      (((c.sources ++ "/" ++ source_fname r u), content) :: files)).isNone = false := by
    rw [hlook]
    rfl
  simp only [extractLoop, hin, Bool.false_eq_true, if_false]
  split <;> simp [extractLoop]

/-- Witness for the amended C3 theorem at the concrete mismatching
recipe. -/
theorem fetch_mismatch_leaves_artifact_extractable_witness :
    (cmd_fetch fetchEnvBad sampleCfg badSumRcp []).1 = 3 ∧
    (cmd_fetch fetchEnvBad sampleCfg badSumRcp []).2.1.lookup "/b/sources/a.tar"
      = some "corrupt" ∧
    "/b/sources/a.tar" ∈ (cmd_extract extractEnvSample sampleCfg badSumRcp
        (cmd_fetch fetchEnvBad sampleCfg badSumRcp []).2.1).2 :=
  fetch_mismatch_leaves_artifact_extractable fetchEnvBad extractEnvSample sampleCfg badSumRcp
    [] "http://h/a.tar" "00" "corrupt" (by decide) (by decide) (by decide) rfl rfl (by decide)

/-- Lowercase-hex digit: code point in 48-57 (digits) or 97-102 (a-f). -/
def isLowerHexDigit (ch : Char) : Bool :=
  (48 ≤ ch.toNat ∧ ch.toNat ≤ 57) ∨ (97 ≤ ch.toNat ∧ ch.toNat ≤ 102)

/-- Uppercase hex letter: code point in 65-70 (A-F). -/
def isUpperHexLetter (ch : Char) : Bool :=
  65 ≤ ch.toNat ∧ ch.toNat ≤ 70

/-- No character is both an uppercase hex letter and a lowercase-hex
digit. -/
theorem upperHex_not_lowerHex (ch : Char)
    (h1 : isUpperHexLetter ch = true)
    (h2 : isLowerHexDigit ch = true) : False := by
  simp [isUpperHexLetter, isLowerHexDigit] at h1 h2
  omega

/-- C10: the checksum comparison in `cmd_fetch` is exact, case-sensitive
string equality of the declared value against the whitespace-stripped
digest-pipeline output.  Whenever the declared sha256 contains an
uppercase hex letter while the computed digest is lowercase hex, the
comparison fails and fetch exits with 3 (IntegrityError) — even when the
digest value matches up to letter case. -/
theorem uppercase_checksum_fails
    (env : FetchEnv) (c : Config) (r : Recipe) (files : Files) (u d g content : String)
    (hurl : Recipe.split_list r.url = [u])
    (hsum : Recipe.split_list r.sha256 = [d])
    (hpresent : files.lookup (c.sources ++ "/" ++ source_fname r u) = some content)
    (hg : sha256_file env files (c.sources ++ "/" ++ source_fname r u) = g)
    (hlower : ∀ ch ∈ g.data, isLowerHexDigit ch = true)
    (hupper : ∃ ch ∈ d.data, isUpperHexLetter ch = true)
    (hcase : d.data.map Char.toLower = g.data) :
    (cmd_fetch env c r files).1 = 3 := by
  have hne_dg : d ≠ g := by
    rcases hupper with ⟨ch, hchd, hchu⟩
    intro heq
    subst heq
    exact upperHex_not_lowerHex ch hchu (hlower ch hchd)
  have hd : d ≠ "" := by
    rcases hupper with ⟨ch, hchd, _⟩
    intro h
    subst h
    simp at hchd
  have hcond : d ≠ "" ∧ sha256_file env files (c.sources ++ "/" ++ source_fname r u) ≠ d :=
    ⟨hd, by rw [hg]; exact fun h => hne_dg h.symm⟩
  have hloop : fetchLoop env c r [u] [d] files [] = (3, files, []) := by
    simp only [fetchLoop]
    rw [hpresent]
    dsimp only
    rw [if_pos hcond]
  unfold cmd_fetch
  rw [hurl, hsum, hloop]
  rfl

/-- A fetch environment whose digest pipeline reports `ab`. -/
def upperEnv : FetchEnv :=
  { net := fun _ => Except.error 1, dg := fun _ => "ab",
    gitDirExists := false, gitCloneRc := 0, gitFetchRc := 0 }

/-- A recipe declaring the checksum in uppercase: `AB`. -/
def upperRcp : Recipe :=
  { name := "p", version := "1", url := "http://h/a.tar", sha256 := "AB" }

/-- A sources directory already holding the artifact. -/
def upperFiles : Files := [("/b/sources/a.tar", "x")]

/-- Witness for the case-sensitive-checksum theorem: declared `AB`
against computed `ab` fails with 3. -/
theorem uppercase_checksum_fails_witness :
    (cmd_fetch upperEnv sampleCfg upperRcp upperFiles).1 = 3 :=
  uppercase_checksum_fails upperEnv sampleCfg upperRcp upperFiles "http://h/a.tar"
    "AB" "ab" "x" (by decide) (by decide) (by decide) (by decide) (by decide)
    (by decide) (by decide)

/-- C8: `cmd_revdep` is deterministic in the enumeration order of the
installation root: any two enumerations that are permutations of each
other produce the identical library-to-sorted-dependents report (the
`std::map`/`std::set` accumulation is, semantically, a finite set of
pairs, rendered in sorted order). -/
theorem cmd_revdep_deterministic (l1 l2 : List BinEntry) (h : List.Perm l1 l2) :
    cmd_revdep l1 = cmd_revdep l2 := by
  have hp : revdepPairs l1 = revdepPairs l2 :=
    h.foldl_eq' (fun x _ y _ z => by rw [Finset.union_right_comm]) ∅
  unfold cmd_revdep
  rw [hp]

/-- An ELF binary depending on libc and libm. -/
def elfEntryA : BinEntry :=
  { relPath := "bin/a", isRegularFile := true, magic := [127, 69, 76, 70],
    lddLines := ["libc.so.6 ", "libm.so.6"] }

/-- An ELF binary depending on libc. -/
def elfEntryB : BinEntry :=
  { relPath := "bin/b", isRegularFile := true, magic := [127, 69, 76, 70],
    lddLines := ["libc.so.6"] }

/-- Witness for revdep determinism: the two enumeration orders of the
same two binaries yield the same report. -/
theorem cmd_revdep_deterministic_witness :
    cmd_revdep [elfEntryA, elfEntryB] = cmd_revdep [elfEntryB, elfEntryA] :=
  cmd_revdep_deterministic [elfEntryA, elfEntryB] [elfEntryB, elfEntryA] (by decide)

end Cbuild
